import Mathlib

/-!
Verification of the Gophermart loyalty system (github.com/25x8/ya-prakt-6-sprint).

The development shallowly embeds the Go sources:
* `internal/gophermart/models/models.go` — records and status constants;
* `internal/gophermart/utils/luhn.go` — `ValidateLuhn`, `IsNumeric`;
* the repository layer (`PostgresRepository`) — ledger operations over the
  `orders` and `withdrawals` tables, modelled as pure functions on a `Ledger`
  value (the two tables as lists of rows, SQL aggregation as list folds);
* `internal/gophermart/service/accrual.go` — `GetOrderAccrual`, with the HTTP
  exchange abstracted to the status code, the `Retry-After` header string and
  the already-decoded JSON body;
* `internal/gophermart/service/worker.go` — `OrderProcessor.processOrder` and
  the `processPendingOrders` sweep;
* `internal/gophermart/handlers/handlers.go` — `UploadOrder`,
  `WithdrawBalance` and the handler-side `processOrder`, with the goroutine it
  fires rendered sequentially inside the upload operation.

Monetary amounts (Go `float64`, PostgreSQL `NUMERIC(10,2)`) are modelled as
rationals; timestamps as naturals; SERIAL ids are passed in explicitly.
-/

deriving instance DecidableEq for Except

namespace Gophermart

/-- Status constant from models.go. -/
def StatusNew : String := "NEW"

/-- Status constant from models.go. -/
def StatusProcessing : String := "PROCESSING"

/-- Status constant from models.go. -/
def StatusInvalid : String := "INVALID"

/-- Status constant from models.go. -/
def StatusProcessed : String := "PROCESSED"

/-- Status constant from models.go (accrual-system status). -/
def StatusRegistered : String := "REGISTERED"

/-- models.Order: a row of the `orders` table. -/
structure Order where
  id : Int
  number : String
  userId : Int
  status : String
  accrual : ℚ
  uploadedAt : Nat
deriving DecidableEq, Repr

/-- models.Withdrawal: a row of the `withdrawals` table (`sum` column). -/
structure Withdrawal where
  id : Int
  userId : Int
  order : String
  sum : ℚ
  processedAt : Nat
deriving DecidableEq, Repr

/-- models.Balance. -/
structure Balance where
  current : ℚ
  withdrawn : ℚ
deriving DecidableEq, Repr

/-- models.AccrualResponse: decoded body of the accrual-service reply. -/
structure AccrualResponse where
  order : String
  status : String
  accrual : ℚ
deriving DecidableEq, Repr

/-- The durable state owned by PostgresRepository: the `orders` and
`withdrawals` tables (the `users` table plays no role in the claims). -/
structure Ledger where
  orders : List Order
  withdrawals : List Withdrawal
deriving DecidableEq, Repr

/-- The empty database, as after `createTables`. -/
def initialLedger : Ledger := ⟨[], []⟩

/-- Embeds `PostgresRepository.CreateOrder`:
`INSERT INTO orders (user_id, number, status) VALUES ($1,$2,'NEW')`;
the `accrual` column defaults to 0, `uploaded_at` to the current time, `id`
to the next serial value (passed in explicitly here). -/
def createOrder (st : Ledger) (userID : Int) (orderNumber : String)
    (newID : Int) (now : Nat) : Ledger :=
  { st with orders := st.orders ++ [⟨newID, orderNumber, userID, StatusNew, 0, now⟩] }

/-- Embeds `PostgresRepository.GetOrderByNumber`:
`SELECT ... FROM orders WHERE number = $1` (`number` is UNIQUE). -/
def findOrderByNumber (st : Ledger) (orderNumber : String) : Option Order :=
  st.orders.find? (fun o => o.number == orderNumber)

/-- Embeds `PostgresRepository.UpdateOrderStatus`:
`UPDATE orders SET status = $1, accrual = $2 WHERE number = $3`. -/
def updateOrderStatus (st : Ledger) (orderNumber status : String) (accrual : ℚ) : Ledger :=
  { st with orders := st.orders.map (fun o =>
      if o.number == orderNumber then { o with status := status, accrual := accrual } else o) }

/-- Embeds `PostgresRepository.GetUserBalance` (part_004:343-376): the first
query sums `accrual` over the user's PROCESSED orders into `Current`, the
second sums `sum` over the user's withdrawals into `Withdrawn`, then
`balance.Current -= balance.Withdrawn`.  SQL `SUM` over the selected rows is
modelled as a left fold over the filtered row list. -/
def getUserBalance (st : Ledger) (userID : Int) : Balance :=
  let current :=
    (st.orders.filter (fun o => o.userId == userID && o.status == StatusProcessed)).foldl
      (fun acc o => acc + o.accrual) 0
  let withdrawn :=
    (st.withdrawals.filter (fun w => w.userId == userID)).foldl
      (fun acc w => acc + w.sum) 0
  { current := current - withdrawn, withdrawn := withdrawn }

/-- The INSERT statement inside `PostgresRepository.WithdrawBalance`:
`INSERT INTO withdrawals (user_id, order_number, sum, processed_at) VALUES ...`.
It is a separate SQL statement from the balance read, outside any
transaction. -/
def insertWithdrawal (st : Ledger) (userID : Int) (orderNumber : String)
    (amount : ℚ) (newID : Int) (now : Nat) : Ledger :=
  { st with withdrawals := st.withdrawals ++ [⟨newID, userID, orderNumber, amount, now⟩] }

/-- Embeds `PostgresRepository.WithdrawBalance` (part_004:378-397) run in
isolation: read the balance with `GetUserBalance`, fail with the
`insufficient funds` error when `balance.Current < amount`, otherwise insert
the withdrawal row.  (The two steps are separate statements in the source;
the race between them is treated where the state is shared.) -/
def withdrawBalance (st : Ledger) (userID : Int) (orderNumber : String)
    (amount : ℚ) (newID : Int) (now : Nat) : Except String Ledger :=
  let balance := getUserBalance st userID
  if balance.current < amount then Except.error "insufficient funds"
  else Except.ok (insertWithdrawal st userID orderNumber amount newID now)

/-- Digit value of a character, `none` for a non-digit. -/
def digitVal (c : Char) : Option Nat :=
  if '0' ≤ c ∧ c ≤ '9' then some (c.toNat - '0'.toNat) else none

/-- Accumulate a base-10 digit string into a natural number; `none` on the
first non-digit. -/
def parseDigitsAux : List Char → Nat → Option Nat
  | [], acc => some acc
  | c :: cs, acc =>
    match digitVal c with
    | some d => parseDigitsAux cs (acc * 10 + d)
    | none => none

/-- Embeds Go `strconv.ParseInt(s, 10, 64)` (and `strconv.Atoi`, which is
`ParseInt(s, 10, 0)` with the platform int being 64-bit): an optional leading
sign, then one or more decimal digits, with the value required to fit in a
signed 64-bit integer; every failure (empty, stray character, overflow) is an
error, modelled as `none`. -/
def parseInt64 (s : String) : Option Int :=
  match s.data with
  | [] => none
  | c :: cs =>
    let rest := if c = '-' ∨ c = '+' then cs else c :: cs
    let neg := c = '-'
    if rest = [] then none
    else
      match parseDigitsAux rest 0 with
      | none => none
      | some n =>
        if neg then
          if n ≤ 2 ^ 63 then some (-(n : Int)) else none
        else
          if n ≤ 2 ^ 63 - 1 then some (n : Int) else none

/-- Embeds `utils.IsNumeric`: `strconv.ParseInt(s, 10, 64)` succeeds. -/
def isNumeric (s : String) : Bool := (parseInt64 s).isSome

/-- The digit-collection loop of `utils.ValidateLuhn`: convert the string to
digit values, failing on the first character outside `'0'..'9'`. -/
def luhnDigits : List Char → Option (List Nat)
  | [] => some []
  | c :: cs =>
    if c < '0' ∨ '9' < c then none
    else (luhnDigits cs).map (fun ds => (c.toNat - '0'.toNat) :: ds)

/-- The summation loop of `utils.ValidateLuhn`: at index `i` (0-based from
the left) the digit is doubled when `i % 2 == parity`, with 9 subtracted from
a doubled value exceeding 9. -/
def luhnSumAux : List Nat → Nat → Nat → Nat
  | [], _, _ => 0
  | d :: ds, i, parity =>
    (if i % 2 == parity then (if d * 2 > 9 then d * 2 - 9 else d * 2) else d)
      + luhnSumAux ds (i + 1) parity

/-- Embeds `utils.ValidateLuhn` (luhn.go:8-32): reject on any non-digit
character, otherwise accept iff the Luhn sum with `parity = len % 2` is
divisible by 10. -/
def validateLuhn (number : String) : Bool :=
  match luhnDigits number.data with
  | none => false
  | some ds => luhnSumAux ds 0 (ds.length % 2) % 10 == 0

/-- Abstract view of the HTTP exchange performed by
`AccrualService.GetOrderAccrual`: the response status code, the value of the
`Retry-After` header (`""` when absent, as returned by Go `Header.Get`), and
the body after `json.Unmarshal` (`none` when reading or decoding the body
fails). -/
structure HTTPReply where
  statusCode : Nat
  retryAfterHeader : String
  bodyDecode : Option AccrualResponse
deriving DecidableEq, Repr

/-- The outcome of the single outbound request: either the transport failed
(`http.NewRequestWithContext` or `httpClient.Do` returned an error) or a
reply arrived. -/
inductive FetchInput
  | transportFailure
  | reply (r : HTTPReply)
deriving DecidableEq, Repr

/-- The distinguishable return values of `AccrualService.GetOrderAccrual`
(`*models.AccrualResponse, error`): each error message the function builds is
a separate constructor, `notRegistered` is the `nil, nil` return on 204, and
`verdict` is a decoded body. -/
inductive FetchResult
  | transportError
  | rateLimitedAfter (seconds : Int)
  | rateLimited
  | notRegistered
  | statusError (code : Nat)
  | bodyError
  | verdict (resp : AccrualResponse)
deriving DecidableEq, Repr

/-- Embeds `AccrualService.GetOrderAccrual` (part_004:32-80): on 429, when the
`Retry-After` header is non-empty and `strconv.Atoi` succeeds the error
carries the parsed seconds, otherwise the bare `rate limited` error is
returned; 204 returns `nil, nil`; any other non-200 status is an error naming
the status; on 200 the body is decoded, decoding failure being an error. -/
def getOrderAccrual (input : FetchInput) : FetchResult :=
  match input with
  | .transportFailure => .transportError
  | .reply r =>
    if r.statusCode == 429 then
      if r.retryAfterHeader != "" then
        match parseInt64 r.retryAfterHeader with
        | some n => .rateLimitedAfter n
        | none => .rateLimited
      else .rateLimited
    else if r.statusCode == 204 then .notRegistered
    else if r.statusCode != 200 then .statusError r.statusCode
    else
      match r.bodyDecode with
      | none => .bodyError
      | some resp => .verdict resp

/-- Embeds `OrderProcessor.processOrder` (worker.go:71-101).  The result of
the accrual call is an oracle argument; the second component records the
order numbers for which an outbound accrual request was issued.  Terminal
orders are skipped before any call; a NEW order is first moved to PROCESSING;
any fetch error or `nil` response, and any non-terminal verdict, leave the
order for the next sweep; a terminal verdict is written with
`UpdateOrderStatus`. -/
def processOrder (st : Ledger) (order : Order) (fetch : FetchResult) :
    Ledger × List String :=
  if order.status == StatusProcessed || order.status == StatusInvalid then (st, [])
  else
    let st1 :=
      if order.status == StatusNew then updateOrderStatus st order.number StatusProcessing 0
      else st
    match fetch with
    | .verdict resp =>
      if resp.status != StatusProcessed && resp.status != StatusInvalid then
        (st1, [order.number])
      else
        (updateOrderStatus st1 order.number resp.status resp.accrual, [order.number])
    | .notRegistered => (st1, [order.number])
    | _ => (st1, [order.number])

/-- Embeds `OrderProcessor.processPendingOrders` (worker.go:64-68): the body
consists only of comments — it performs no query, issues no accrual request
and changes nothing.  Each tick of the 5-second ticker in `processLoop` calls
exactly this. -/
def processPendingOrders (st : Ledger) : Ledger × List String := (st, [])

/-- Embeds the handler-side `Handler.processOrder` (handlers.go:365-387),
fired as a goroutine right after `CreateOrder` and rendered here as a
sequential step: unconditionally set the order to PROCESSING, issue the
accrual request, and write the verdict only when it is terminal. -/
def handlerProcessOrder (st : Ledger) (orderNumber : String) (fetch : FetchResult) :
    Ledger × List String :=
  let st1 := updateOrderStatus st orderNumber StatusProcessing 0
  match fetch with
  | .verdict resp =>
    if resp.status == StatusProcessed || resp.status == StatusInvalid then
      (updateOrderStatus st1 orderNumber resp.status resp.accrual, [orderNumber])
    else (st1, [orderNumber])
  | _ => (st1, [orderNumber])

/-- The responses `Handler.UploadOrder` can produce on the paths reachable in
this embedding (auth and transport failures excluded): 400 on an empty body,
422 on a number failing `IsNumeric`/`ValidateLuhn`, 200 when the order exists
and is the caller's, 409 when it exists under another user, 202 on creation. -/
inductive UploadStatus
  | emptyNumber
  | invalidFormat
  | alreadyMine
  | ownedByOther
  | accepted
deriving DecidableEq, Repr

/-- Result of an upload: the HTTP-level outcome, the ledger afterwards, and
the order numbers polled against the accrual service during the call. -/
structure UploadResult where
  status : UploadStatus
  state : Ledger
  polled : List String
deriving DecidableEq, Repr

/-- Embeds `Handler.UploadOrder` (handlers.go:144-203): reject an empty body;
reject with 422 unless `IsNumeric` and `ValidateLuhn` both accept; an
existing order returns 200 or 409 by owner without touching the ledger;
otherwise `CreateOrder` inserts the NEW row and the `processOrder` goroutine
runs (rendered sequentially). -/
def uploadOrder (st : Ledger) (userID : Int) (orderNumber : String)
    (fetch : FetchResult) (newID : Int) (now : Nat) : UploadResult :=
  if orderNumber == "" then ⟨.emptyNumber, st, []⟩
  else if !(isNumeric orderNumber && validateLuhn orderNumber) then
    ⟨.invalidFormat, st, []⟩
  else
    match findOrderByNumber st orderNumber with
    | some existing =>
      if existing.userId == userID then ⟨.alreadyMine, st, []⟩
      else ⟨.ownedByOther, st, []⟩
    | none =>
      let st1 := createOrder st userID orderNumber newID now
      let processed := handlerProcessOrder st1 orderNumber fetch
      ⟨.accepted, processed.1, processed.2⟩

/-- The responses `Handler.WithdrawBalance` can produce on the reachable
paths: 422 on a label failing `IsNumeric`/`ValidateLuhn`, 402 on the
`insufficient funds` error, 200 otherwise. -/
inductive WithdrawStatus
  | invalidFormat
  | insufficientFunds
  | ok
deriving DecidableEq, Repr

/-- Embeds `Handler.WithdrawBalance` (handlers.go:280-318): validate the
order label with `IsNumeric` and `ValidateLuhn`, then delegate to the
repository `WithdrawBalance`; the `insufficient funds` error maps to 402.
No check of any kind is made on the requested amount. -/
def withdrawHandler (st : Ledger) (userID : Int) (orderLabel : String)
    (amount : ℚ) (newID : Int) (now : Nat) : WithdrawStatus × Ledger :=
  if !(isNumeric orderLabel && validateLuhn orderLabel) then (.invalidFormat, st)
  else
    match withdrawBalance st userID orderLabel amount newID now with
    | .error _ => (.insufficientFunds, st)
    | .ok st1 => (.ok, st1)

/-- The ledger-mutating operations of the system, each applied atomically in
this sequential embedding: an order upload (with the accrual oracle consumed
by the in-call goroutine), one tick of the reconciliation sweep, a
`processOrder` call of the worker on the stored row of a given number, and a
withdrawal request. -/
inductive Op
  | upload (userID : Int) (orderNumber : String) (fetch : FetchResult) (newID : Int) (now : Nat)
  | sweep
  | workerOrder (orderNumber : String) (fetch : FetchResult)
  | withdraw (userID : Int) (orderLabel : String) (amount : ℚ) (newID : Int) (now : Nat)
deriving DecidableEq, Repr

/-- Apply one operation to the ledger. -/
def applyOp (st : Ledger) (op : Op) : Ledger :=
  match op with
  | .upload userID orderNumber fetch newID now =>
    (uploadOrder st userID orderNumber fetch newID now).state
  | .sweep => (processPendingOrders st).1
  | .workerOrder orderNumber fetch =>
    match findOrderByNumber st orderNumber with
    | none => st
    | some o => (processOrder st o fetch).1
  | .withdraw userID orderLabel amount newID now =>
    (withdrawHandler st userID orderLabel amount newID now).2

/-- Apply a sequence of operations, oldest first. -/
def applyOps (st : Ledger) (ops : List Op) : Ledger := ops.foldl applyOp st

/-- A status the spec calls terminal. -/
def isTerminal (s : String) : Bool := s == StatusProcessed || s == StatusInvalid

/-- The spec's balance formula, written from its words:
`current = Σ(accrual of PROCESSED orders owned by user) − Σ(amount of
withdrawals by user)`. -/
def specCurrent (st : Ledger) (userID : Int) : ℚ :=
  ((st.orders.filter (fun o => decide (o.userId = userID ∧ o.status = StatusProcessed))).map
    Order.accrual).sum
  - ((st.withdrawals.filter (fun w => decide (w.userId = userID))).map Withdrawal.sum).sum

/-- The spec's balance formula, written from its words:
`withdrawn = Σ(amount of withdrawals by user)`. -/
def specWithdrawn (st : Ledger) (userID : Int) : ℚ :=
  ((st.withdrawals.filter (fun w => decide (w.userId = userID))).map Withdrawal.sum).sum

/-- The spec's response mapping for the accrual client, written from its
words as amended: 200 with a verdict body gives the parsed verdict; 204 gives
`NotRegistered`; 429 gives a rate-limited signal carrying the seconds parsed
from the retry-after value when that parses, and carrying no delay otherwise
(the source has no default of 60); any other non-200 status, a transport
failure, or a malformed body gives an error result. -/
def specFetchClassify (input : FetchInput) : FetchResult :=
  match input with
  | .transportFailure => .transportError
  | .reply r =>
    if r.statusCode = 429 then
      match parseInt64 r.retryAfterHeader with
      | some n => .rateLimitedAfter n
      | none => .rateLimited
    else if r.statusCode = 204 then .notRegistered
    else if r.statusCode = 200 then
      match r.bodyDecode with
      | some resp => .verdict resp
      | none => .bodyError
    else .statusError r.statusCode

/-- A ledger holding one PROCESSED order of user 1 worth 100 points.  Used as
the shared starting state of the two racing withdrawals. -/
def raceLedger : Ledger :=
  ⟨[⟨1, "79927398713", 1, StatusProcessed, 100, 0⟩], []⟩

/-- `raceLedger` after both racing withdrawals of 60 have run their INSERT,
each having passed the balance check against the shared initial state. -/
def raceLedgerAfter : Ledger :=
  insertWithdrawal (insertWithdrawal raceLedger 1 "2377225624" 60 1 1)
    1 "2377225612" 60 2 1

/-- A ledger holding one NEW order, which a sweep obeying the spec would have
to select and process. -/
def pendingLedger : Ledger :=
  ⟨[⟨1, "79927398713", 1, StatusNew, 0, 0⟩], []⟩

/-- A ledger holding one PROCESSING order, which the worker polls and for
which the accrual service answers 429. -/
def rateLimitLedger : Ledger :=
  ⟨[⟨1, "2377225624", 1, StatusProcessing, 0, 0⟩], []⟩

/-- The PROCESSING row stored in `rateLimitLedger`. -/
def rateLimitOrder : Order := ⟨1, "2377225624", 1, StatusProcessing, 0, 0⟩

/-- A ledger holding one terminal (PROCESSED) order, for the terminality
witness. -/
def terminalLedger : Ledger :=
  ⟨[⟨1, "79927398713", 1, StatusProcessed, 100, 0⟩,
    ⟨2, "12345678903", 1, StatusProcessing, 0, 1⟩], []⟩

/-- The terminal row stored in `terminalLedger`. -/
def terminalOrder : Order := ⟨1, "79927398713", 1, StatusProcessed, 100, 0⟩

/-- Operations thrown at `terminalLedger` in the terminality witness: a
worker poll of the terminal order answered with a conflicting INVALID
verdict, an upload of the same number by another user, a sweep, and a
withdrawal. -/
def terminalOps : List Op :=
  [Op.workerOrder "79927398713" (.verdict ⟨"79927398713", StatusInvalid, 7⟩),
   Op.upload 2 "79927398713" (.verdict ⟨"79927398713", StatusProcessed, 9⟩) 5 5,
   Op.sweep,
   Op.withdraw 1 "12345678903" 50 1 6]

/-! ### Helper lemmas -/

theorem parseInt64_empty : parseInt64 "" = none := rfl

theorem luhnDigits_none_of_nondigit (l : List Char) (c : Char)
    (hc : c ∈ l) (hnd : c < '0' ∨ '9' < c) : luhnDigits l = none := by
  induction l with
  | nil => cases hc
  | cons d ds ih =>
    rcases List.mem_cons.mp hc with rfl | h
    · simp [luhnDigits, hnd]
    · by_cases hd : d < '0' ∨ '9' < d
      · simp [luhnDigits, hd]
      · simp [luhnDigits, hd, ih h]

theorem foldl_add_map {α : Type} (f : α → ℚ) (l : List α) (a : ℚ) :
    l.foldl (fun acc x => acc + f x) a = a + (l.map f).sum := by
  induction l generalizing a with
  | nil => simp
  | cons x xs ih => simp [ih (a + f x)]; ring

theorem order_filter_pred_eq (o : Order) (uid : Int) :
    (o.userId == uid && o.status == StatusProcessed)
      = decide (o.userId = uid ∧ o.status = StatusProcessed) := by
  by_cases h1 : o.userId = uid <;> by_cases h2 : o.status = StatusProcessed <;>
    simp [h1, h2]

theorem withdrawal_filter_pred_eq (w : Withdrawal) (uid : Int) :
    (w.userId == uid) = decide (w.userId = uid) := by
  by_cases h : w.userId = uid <;> simp [h]

theorem getUserBalance_eq_spec (st : Ledger) (uid : Int) :
    getUserBalance st uid = ⟨specCurrent st uid, specWithdrawn st uid⟩ := by
  have h1 : st.orders.filter (fun o => o.userId == uid && o.status == StatusProcessed)
      = st.orders.filter (fun o => decide (o.userId = uid ∧ o.status = StatusProcessed)) :=
    List.filter_congr (fun a _ => order_filter_pred_eq a uid)
  have h2 : st.withdrawals.filter (fun w => w.userId == uid)
      = st.withdrawals.filter (fun w => decide (w.userId = uid)) :=
    List.filter_congr (fun a _ => withdrawal_filter_pred_eq a uid)
  unfold getUserBalance specCurrent specWithdrawn
  rw [h1, h2, foldl_add_map, foldl_add_map, zero_add, zero_add]

theorem findOrderByNumber_update_ne (st : Ledger) (m s : String) (q : ℚ) (n : String)
    (hne : m ≠ n) :
    findOrderByNumber (updateOrderStatus st m s q) n = findOrderByNumber st n := by
  unfold findOrderByNumber updateOrderStatus
  rw [List.find?_map]
  have hcomp : ((fun o : Order => o.number == n) ∘
      (fun o : Order => if o.number == m then { o with status := s, accrual := q } else o))
      = fun o : Order => o.number == n := by
    funext o
    by_cases h : (o.number == m) = true
    · simp [Function.comp, h]
    · simp [Function.comp, h]
  rw [hcomp]
  cases hfind : st.orders.find? (fun o => o.number == n) with
  | none => rfl
  | some o =>
    have hon := List.find?_some hfind
    have hom : (o.number == m) = false := by
      have h1 : o.number = n := by simpa using hon
      simp [h1]
      exact fun h2 => hne h2.symm
    have hom2 : ¬ ((o.number == m) = true) := by simp [hom]
    simp only [Option.map, if_neg hom2]

theorem findOrderByNumber_create (st : Ledger) (uid : Int) (num : String)
    (newID : Int) (now : Nat) (n : String) (o : Order)
    (h : findOrderByNumber st n = some o) :
    findOrderByNumber (createOrder st uid num newID now) n = some o := by
  unfold findOrderByNumber createOrder
  unfold findOrderByNumber at h
  rw [List.find?_append, h]
  rfl

theorem withdrawHandler_orders (st : Ledger) (uid : Int) (label : String)
    (amt : ℚ) (newID : Int) (now : Nat) :
    (withdrawHandler st uid label amt newID now).2.orders = st.orders := by
  unfold withdrawHandler withdrawBalance insertWithdrawal
  by_cases hval : (isNumeric label && validateLuhn label) = true
  · by_cases hb : (getUserBalance st uid).current < amt
    · simp [hval, hb]
    · simp [hval, hb]
  · simp [hval]

theorem handlerProcessOrder_find_ne (st : Ledger) (num : String) (fetch : FetchResult)
    (n : String) (hne : num ≠ n) :
    findOrderByNumber (handlerProcessOrder st num fetch).1 n = findOrderByNumber st n := by
  unfold handlerProcessOrder
  have hupd : ∀ (st' : Ledger) (s : String) (q : ℚ),
      findOrderByNumber (updateOrderStatus st' num s q) n = findOrderByNumber st' n :=
    fun st' s q => findOrderByNumber_update_ne st' num s q n hne
  cases fetch with
  | verdict resp =>
    by_cases hv : (resp.status == StatusProcessed || resp.status == StatusInvalid) = true
    · simp [hv, hupd]
    · simp [hv, hupd]
  | transportError => simp [hupd]
  | rateLimitedAfter k => simp [hupd]
  | rateLimited => simp [hupd]
  | notRegistered => simp [hupd]
  | statusError c => simp [hupd]
  | bodyError => simp [hupd]

theorem processOrder_find_ne (st : Ledger) (ord : Order) (fetch : FetchResult)
    (n : String) (hne : ord.number ≠ n) :
    findOrderByNumber (processOrder st ord fetch).1 n = findOrderByNumber st n := by
  unfold processOrder
  have hupd : ∀ (st' : Ledger) (s : String) (q : ℚ),
      findOrderByNumber (updateOrderStatus st' ord.number s q) n = findOrderByNumber st' n :=
    fun st' s q => findOrderByNumber_update_ne st' ord.number s q n hne
  by_cases hterm : (ord.status == StatusProcessed || ord.status == StatusInvalid) = true
  · simp [hterm]
  · by_cases hnew : (ord.status == StatusNew) = true
    · cases fetch with
      | verdict resp =>
        by_cases hv : (resp.status != StatusProcessed && resp.status != StatusInvalid) = true
        · simp [hterm, hnew, hv, hupd]
        · simp [hterm, hnew, hv, hupd]
      | transportError => simp [hterm, hnew, hupd]
      | rateLimitedAfter k => simp [hterm, hnew, hupd]
      | rateLimited => simp [hterm, hnew, hupd]
      | notRegistered => simp [hterm, hnew, hupd]
      | statusError c => simp [hterm, hnew, hupd]
      | bodyError => simp [hterm, hnew, hupd]
    · cases fetch with
      | verdict resp =>
        by_cases hv : (resp.status != StatusProcessed && resp.status != StatusInvalid) = true
        · simp [hterm, hnew, hv, hupd]
        · simp [hterm, hnew, hv, hupd]
      | transportError => simp [hterm, hnew, hupd]
      | rateLimitedAfter k => simp [hterm, hnew, hupd]
      | rateLimited => simp [hterm, hnew, hupd]
      | notRegistered => simp [hterm, hnew, hupd]
      | statusError c => simp [hterm, hnew, hupd]
      | bodyError => simp [hterm, hnew, hupd]

theorem uploadOrder_find_preserved (st : Ledger) (uid : Int) (num : String)
    (fetch : FetchResult) (newID : Int) (now : Nat) (n : String) (o : Order)
    (h : findOrderByNumber st n = some o) :
    findOrderByNumber (uploadOrder st uid num fetch newID now).state n = some o := by
  unfold uploadOrder
  by_cases hemp : (num == "") = true
  · simp [hemp, h]
  · by_cases hval : (isNumeric num && validateLuhn num) = true
    · cases hfo : findOrderByNumber st num with
      | some ex =>
        by_cases howner : (ex.userId == uid) = true
        · simp [hemp, hval, hfo, howner, h]
        · simp [hemp, hval, hfo, howner, h]
      | none =>
        have hne : num ≠ n := by
          intro heq
          rw [heq, h] at hfo
          cases hfo
        simp only [hemp, hval, hfo]
        simp
        rw [handlerProcessOrder_find_ne _ _ _ _ hne]
        exact findOrderByNumber_create st uid num newID now n o h
    · simp [hemp, hval, h]

theorem applyOp_terminal_preserved (st : Ledger) (op : Op) (o : Order)
    (hfind : findOrderByNumber st o.number = some o)
    (hterm : isTerminal o.status = true) :
    findOrderByNumber (applyOp st op) o.number = some o := by
  cases op with
  | upload uid num fetch newID now =>
    exact uploadOrder_find_preserved st uid num fetch newID now o.number o hfind
  | sweep => exact hfind
  | workerOrder num fetch =>
    cases hfo : findOrderByNumber st num with
    | none => simpa [applyOp, hfo] using hfind
    | some ord =>
      by_cases htO : (ord.status == StatusProcessed || ord.status == StatusInvalid) = true
      · have hpo : processOrder st ord fetch = (st, []) := by
          unfold processOrder
          simp [htO]
        simp only [applyOp, hfo]
        rw [hpo]
        exact hfind
      · have hordn : ord.number = num := by
          have := List.find?_some hfo
          simpa [findOrderByNumber] using this
        have hne : ord.number ≠ o.number := by
          intro heq
          rw [hordn] at heq
          rw [heq] at hfo
          rw [hfind] at hfo
          cases hfo
          unfold isTerminal at hterm
          exact htO hterm
        simp only [applyOp, hfo]
        rw [processOrder_find_ne st ord fetch o.number hne]
        exact hfind
  | withdraw uid label amt newID now =>
    have horders : (withdrawHandler st uid label amt newID now).2.orders = st.orders :=
      withdrawHandler_orders st uid label amt newID now
    unfold applyOp findOrderByNumber
    rw [horders]
    exact hfind

/-! ### Claim theorems -/

/-- C8 counterexample: the claim states that `ValidateLuhn` returns `false`
on the empty string, but the source returns `true` there: the digit list is
empty, the Luhn sum is 0, and `0 % 10 == 0` holds. -/
theorem validateLuhn_empty_true : validateLuhn "" = true := by decide

/-- C8 (amended): for every input string containing at least one non-digit
character, `ValidateLuhn` returns `false` (the empty string instead yields
`true` and is rejected upstream by the handlers before `ValidateLuhn` runs). -/
theorem validateLuhn_rejects_nondigit (s : String) (c : Char)
    (hc : c ∈ s.data) (hnd : c < '0' ∨ '9' < c) :
    validateLuhn s = false := by
  unfold validateLuhn
  rw [luhnDigits_none_of_nondigit s.data c hc hnd]

/-- Witness for the amended C8 theorem at the spec's own vector `"12a4"`. -/
theorem validateLuhn_rejects_nondigit_witness :
    ('a' ∈ "12a4".data ∧ ('a' < '0' ∨ '9' < 'a')) ∧ validateLuhn "12a4" = false :=
  ⟨⟨by decide, by decide⟩,
    validateLuhn_rejects_nondigit "12a4" 'a' (by decide) (by decide)⟩

/-- C9: the code never checks that the requested amount is strictly
positive.  With an empty ledger (balance 0), a withdrawal of −5 passes the
`balance.Current < amount` test (`0 < −5` is false), inserts a withdrawal
row with `sum = −5`, returns 200 from the handler, and afterwards the
user's current balance is +5: the rejection the claim requires never
happens. -/
theorem negative_withdrawal_accepted :
    withdrawBalance initialLedger 1 "79927398713" (-5) 1 0
      = Except.ok ⟨[], [⟨1, 1, "79927398713", -5, 0⟩]⟩
    ∧ withdrawHandler initialLedger 1 "79927398713" (-5) 1 0
      = (WithdrawStatus.ok, ⟨[], [⟨1, 1, "79927398713", -5, 0⟩]⟩)
    ∧ (getUserBalance ⟨[], [⟨1, 1, "79927398713", -5, 0⟩]⟩ 1).current = 5 := by
  have hv : (isNumeric "79927398713" && validateLuhn "79927398713") = true := by decide
  have hw : withdrawBalance initialLedger 1 "79927398713" (-5) 1 0
      = Except.ok ⟨[], [⟨1, 1, "79927398713", -5, 0⟩]⟩ := by
    norm_num [withdrawBalance, getUserBalance, initialLedger, insertWithdrawal]
  refine ⟨hw, ?_, ?_⟩
  · simp [withdrawHandler, hv, hw]
  · norm_num [getUserBalance, List.filter]

/-- C2: the balance check and the withdrawal INSERT in
`PostgresRepository.WithdrawBalance` are two separate SQL statements with no
transaction around them.  Starting from a balance of 100, each of two
withdrawals of 60 passes the `balance.Current < amount` check against the
shared initial state, each INSERT then succeeds, and after both the user
holds two withdrawal rows and a current balance of −20 — both requests
succeeded, which the claim's serializable unit would forbid. -/
theorem withdrawal_race_double_spend :
    (¬ (getUserBalance raceLedger 1).current < 60)
    ∧ withdrawBalance raceLedger 1 "2377225624" 60 1 1
        = Except.ok (insertWithdrawal raceLedger 1 "2377225624" 60 1 1)
    ∧ withdrawBalance raceLedger 1 "2377225612" 60 2 1
        = Except.ok (insertWithdrawal raceLedger 1 "2377225612" 60 2 1)
    ∧ raceLedgerAfter.withdrawals.length = 2
    ∧ (getUserBalance raceLedgerAfter 1).current = -20 := by
  have hchk : ¬ (getUserBalance raceLedger 1).current < 60 := by
    norm_num [getUserBalance, raceLedger, List.filter, StatusProcessed]
  refine ⟨hchk, ?_, ?_, by decide, ?_⟩
  · simp [withdrawBalance, hchk]
  · simp [withdrawBalance, hchk]
  · norm_num [getUserBalance, raceLedgerAfter, raceLedger, insertWithdrawal,
      List.filter, StatusProcessed]

/-- C5: `processPendingOrders` is a placeholder whose body is only comments:
it selects nothing, polls nothing and changes nothing, so a sweep over a
ledger holding a NEW order leaves that order in NEW and issues no accrual
request, where the claim requires the order to be selected and processed. -/
theorem sweep_is_noop :
    ((findOrderByNumber pendingLedger "79927398713").map Order.status = some StatusNew
      ∧ processPendingOrders pendingLedger = (pendingLedger, [])
      ∧ applyOp pendingLedger Op.sweep = pendingLedger)
    ∧ ∀ st : Ledger, processPendingOrders st = (st, []) :=
  ⟨by decide, fun _ => rfl⟩

/-- C6: a 429 reply only produces the `rate limited` error value, which
`processOrder` merely logs: the order stays PROCESSING, and no cool-down is
recorded anywhere in the persistent state (the `Ledger` is the only state
there is).  An upload arriving immediately afterwards still polls the
accrual service for the new order, so polling is not suspended for the
advertised 30 seconds. -/
theorem rate_limit_not_suspended :
    getOrderAccrual (.reply ⟨429, "30", none⟩) = .rateLimitedAfter 30
    ∧ processOrder rateLimitLedger rateLimitOrder (.rateLimitedAfter 30)
        = (rateLimitLedger, ["2377225624"])
    ∧ (uploadOrder rateLimitLedger 1 "79927398713" (.rateLimitedAfter 30) 2 1).polled
        = ["79927398713"] := by
  decide

/-- C7 counterexample: the claim states that a 429 reply with an absent or
unparsable retry-after signal yields `RateLimited(60)`, but the source has no
default: both cases return the bare `rate limited` error, which carries no
delay at all and differs from a rate-limit signal carrying 60. -/
theorem rate_limit_no_default_sixty :
    getOrderAccrual (.reply ⟨429, "", none⟩) = .rateLimited
    ∧ getOrderAccrual (.reply ⟨429, "soon", none⟩) = .rateLimited
    ∧ FetchResult.rateLimited ≠ FetchResult.rateLimitedAfter 60 := by
  decide

/-- C7 (amended): `GetOrderAccrual` maps every possible exchange exactly as
the spec's table says except for the retry default — 429 yields the
rate-limited signal carrying the seconds parsed from the retry-after header
when it parses as an integer and carrying no delay otherwise, 204 yields the
non-error `nil, nil` result, 200 yields the decoded verdict with a decoding
failure surfacing as an error, and a transport failure or any other status
yields an error naming the failure. -/
theorem getOrderAccrual_eq_spec (input : FetchInput) :
    getOrderAccrual input = specFetchClassify input := by
  cases input with
  | transportFailure => rfl
  | reply r =>
    unfold getOrderAccrual specFetchClassify
    by_cases h429 : r.statusCode = 429
    · by_cases hra : r.retryAfterHeader = ""
      · simp [h429, hra, parseInt64_empty]
      · simp [h429, hra]
    · by_cases h204 : r.statusCode = 204
      · simp [h429, h204]
      · by_cases h200 : r.statusCode = 200
        · simp only [h429, h204, h200]
          simp
          cases r.bodyDecode <;> rfl
        · simp [h429, h204, h200]

/-- C3: a withdrawal request whose amount strictly exceeds the user's
current balance makes `PostgresRepository.WithdrawBalance` return the
`insufficient funds` error without inserting anything, and the handler
leaves the ledger exactly as it was. -/
theorem withdraw_insufficient_rejected (st : Ledger) (userID : Int)
    (orderLabel : String) (amount : ℚ) (newID : Int) (now : Nat)
    (hamt : (getUserBalance st userID).current < amount) :
    withdrawBalance st userID orderLabel amount newID now
      = Except.error "insufficient funds"
    ∧ (withdrawHandler st userID orderLabel amount newID now).2 = st := by
  have hrepo : withdrawBalance st userID orderLabel amount newID now
      = Except.error "insufficient funds" := by
    unfold withdrawBalance
    simp [hamt]
  refine ⟨hrepo, ?_⟩
  unfold withdrawHandler
  by_cases hval : (isNumeric orderLabel && validateLuhn orderLabel) = true
  · simp [hval, hrepo]
  · simp [hval]

/-- Witness for C3: on the empty ledger user 1's balance is 0, so a
withdrawal of 1 is rejected and the ledger stays empty. -/
theorem withdraw_insufficient_rejected_witness :
    (getUserBalance initialLedger 1).current < 1
    ∧ (withdrawBalance initialLedger 1 "79927398713" 1 1 0
        = Except.error "insufficient funds"
      ∧ (withdrawHandler initialLedger 1 "79927398713" 1 1 0).2 = initialLedger) := by
  have h : (getUserBalance initialLedger 1).current < 1 := by
    norm_num [getUserBalance, initialLedger]
  exact ⟨h, withdraw_insufficient_rejected initialLedger 1 "79927398713" 1 1 0 h⟩

/-- C10: an order-number string of digits that `strconv.ParseInt(s, 10, 64)`
cannot represent fails `IsNumeric`, so both `UploadOrder` and the withdrawal
handler answer invalid format with the ledger untouched and no accrual
request issued, regardless of the Luhn checksum. -/
theorem overlong_number_rejected (st : Ledger) (userID : Int) (s : String)
    (fetch : FetchResult) (newID wid : Int) (now : Nat) (amount : ℚ)
    (_hdigits : ∀ c ∈ s.data, '0' ≤ c ∧ c ≤ '9')
    (hne : s ≠ "")
    (hnoparse : parseInt64 s = none) :
    uploadOrder st userID s fetch newID now = ⟨.invalidFormat, st, []⟩
    ∧ withdrawHandler st userID s amount wid now = (.invalidFormat, st) := by
  have hnum : isNumeric s = false := by simp [isNumeric, hnoparse]
  constructor
  · unfold uploadOrder
    simp [hne, hnum]
  · unfold withdrawHandler
    simp [hnum]

/-- Witness for C10 at the 20-digit string of nines, which is all digits,
beyond the signed 64-bit range, and incidentally a valid Luhn number is not
required: the format check fires first. -/
theorem overlong_number_rejected_witness :
    ((∀ c ∈ "99999999999999999999".data, '0' ≤ c ∧ c ≤ '9')
      ∧ "99999999999999999999" ≠ ""
      ∧ parseInt64 "99999999999999999999" = none)
    ∧ (uploadOrder initialLedger 1 "99999999999999999999" .transportError 1 0
        = ⟨.invalidFormat, initialLedger, []⟩
      ∧ withdrawHandler initialLedger 1 "99999999999999999999" 5 1 0
        = (.invalidFormat, initialLedger)) :=
  ⟨⟨by decide, by decide, by decide⟩,
    overlong_number_rejected initialLedger 1 "99999999999999999999" .transportError 1 1 0 5
      (by decide) (by decide) (by decide)⟩

/-- C1: after any sequence of uploads, sweeps, worker polls and withdrawals
starting from the empty database, `GetUserBalance` returns exactly the
spec's derived balance: `current` is the sum of accruals over the user's
PROCESSED orders minus the sum of the user's withdrawal amounts, and
`withdrawn` is the latter sum. -/
theorem getUserBalance_correct (ops : List Op) (userID : Int) :
    getUserBalance (applyOps initialLedger ops) userID
      = ⟨specCurrent (applyOps initialLedger ops) userID,
         specWithdrawn (applyOps initialLedger ops) userID⟩ :=
  getUserBalance_eq_spec (applyOps initialLedger ops) userID

/-- C4: an order whose stored status is terminal (PROCESSED or INVALID) is
never touched again: after any further sequence of uploads, sweeps, worker
`processOrder` calls (even ones delivering a conflicting verdict for that
number) and withdrawals, looking the order up by number still returns the
identical row, status and accrual included. -/
theorem terminal_status_preserved (ops : List Op) (st : Ledger) (o : Order)
    (hfind : findOrderByNumber st o.number = some o)
    (hterm : isTerminal o.status = true) :
    findOrderByNumber (applyOps st ops) o.number = some o := by
  induction ops generalizing st with
  | nil => exact hfind
  | cons op rest ih =>
    exact ih (applyOp st op) (applyOp_terminal_preserved st op o hfind hterm)

/-- Witness for C4: the PROCESSED order worth 100 survives a worker poll
with a conflicting INVALID verdict, a duplicate upload by another user, a
sweep and a withdrawal, unchanged. -/
theorem terminal_status_preserved_witness :
    (findOrderByNumber terminalLedger terminalOrder.number = some terminalOrder
      ∧ isTerminal terminalOrder.status = true)
    ∧ findOrderByNumber (applyOps terminalLedger terminalOps) terminalOrder.number
        = some terminalOrder :=
  ⟨⟨by decide, by decide⟩,
    terminal_status_preserved terminalOps terminalLedger terminalOrder
      (by decide) (by decide)⟩

end Gophermart
